import Mathlib

/-!
Verification of the fee-ledger engine and the AI content-generation
pipeline of the ai-educational-platform backend.

The ledger operations are shallowly embedded from
`backend/app/api/v1/endpoints/fees.py`: the SQLAlchemy session becomes an
explicit `LedgerState` record of entity lists, a query's `.first()` becomes
`List.find?`, an in-place entity mutation becomes `updateFirst`, and
`db.commit()` of pending `db.add(...)` calls becomes a list append.  The
session is created with `autoflush=False` (`backend/app/core/database.py`),
so queries issued inside one endpoint call see only the state as of the
start of the call; the embedding therefore runs every in-call query against
the entry state.  Monetary amounts (Python floats in the source) are
embedded as rationals; `round(x, 2)` becomes `round2`.  Autoincrement ids
are modelled by `nextAssignId` / `nextPaymentId`, and `datetime` values by
`Nat` clock parameters.  Pass-through metadata fields that no endpoint
logic reads (cheque details, timestamps of creation, ...) are elided.
-/

namespace EduSpec

/-- Discount kind of a `FeesDiscount` row: the `discount_type` column holds
the string "percentage" or "fixed". -/
inductive DiscountType where
  | percentage
  | fixed
deriving DecidableEq, Repr

/-- Row of `fees_masters` (`backend/app/models/fees.py`): a priced fee
definition.  Fields not read by the embedded endpoints are elided. -/
structure FeesMaster where
  id : Nat
  school_id : Nat
  amount : ℚ
  due_date : Option Nat
  academic_year : String
  term : Option String
deriving DecidableEq, Repr

/-- Row of `fees_discounts`: a percentage or fixed reduction. -/
structure FeesDiscount where
  id : Nat
  discount_type : DiscountType
  amount : ℚ
deriving DecidableEq, Repr

/-- Row of `fees_assigns`: one student's obligation toward one fees master. -/
structure FeesAssign where
  id : Nat
  school_id : Nat
  student_id : Nat
  fees_master_id : Nat
  discount_id : Option Nat
  total_amount : ℚ
  paid_amount : ℚ
  balance : ℚ
  status : String
  due_date : Option Nat
  is_carried_forward : Bool
deriving DecidableEq, Repr

/-- Row of `fees_payments`: one payment transaction. -/
structure FeesPayment where
  id : Nat
  school_id : Nat
  student_id : Nat
  fees_assign_id : Nat
  fees_master_id : Nat
  amount : ℚ
  payment_method : String
  receipt_number : String
  note : Option String
  collected_by : Nat
  is_verified : Bool
  verified_by : Option Nat
  verified_at : Option Nat
deriving DecidableEq, Repr

/-- The persistent store visible to the fees endpoints. -/
structure LedgerState where
  masters : List FeesMaster
  discounts : List FeesDiscount
  assigns : List FeesAssign
  payments : List FeesPayment
deriving DecidableEq, Repr

/-- Errors raised by the endpoints: `HTTPException(404, detail)` and
`HTTPException(400, detail)`.  Interpolated numbers in the source's detail
strings are elided. -/
inductive ApiError where
  | notFound (detail : String)
  | badRequest (detail : String)
deriving DecidableEq, Repr

/-- Python's `round(x, 2)` on the rational embedding of the source's float
amounts: round to the nearest multiple of 1/100 (the source rounds floats
half-to-even; no embedded claim evaluates at a half-cent, where the two
rules could differ).  Written with `Rat.floor` so that it evaluates by
kernel reduction; `round2_eq_round` relates it to Mathlib's `round`. -/
def round2 (q : ℚ) : ℚ := (((100 * q + 1 / 2).floor : ℤ) : ℚ) / 100

/-- Replace the first element satisfying `p` (the SQLAlchemy pattern of
mutating the single object returned by `.first()`). -/
def updateFirst {α : Type} (l : List α) (p : α → Bool) (f : α → α) : List α :=
  match l with
  | [] => []
  | x :: xs => if p x then f x :: xs else x :: updateFirst xs p f

/-- Next autoincrement id for `fees_assigns`. -/
def nextAssignId (db : LedgerState) : Nat :=
  (db.assigns.map (fun a => a.id)).foldr max 0 + 1

/-- Next autoincrement id for `fees_payments`. -/
def nextPaymentId (db : LedgerState) : Nat :=
  (db.payments.map (fun p => p.id)).foldr max 0 + 1

/-- Request body `FeesPaymentCreate` (`backend/app/schemas/fees.py`); its
validated constraint is `amount > 0` (`Field(..., gt=0)`).  Cheque metadata
is elided. -/
structure PaymentCreate where
  school_id : Nat
  student_id : Nat
  fees_assign_id : Nat
  amount : ℚ
  payment_method : String
  note : Option String
deriving DecidableEq, Repr

/-- The in-place assignment mutation shared by `collect_fees` and the
approval branch of `verify_offline_bank_payment` (fees.py lines 333-335 and
648-650): `paid_amount += amount; balance -= amount;
status = "paid" if balance <= 0 else "partial"`. -/
def payMutation (a : FeesAssign) (amt : ℚ) : FeesAssign :=
  { a with
    paid_amount := a.paid_amount + amt
    balance := a.balance - amt
    status := if a.balance - amt ≤ 0 then ("paid") else ("partial") }

/-- `collect_fees` (fees.py lines 288-343): direct collection with an
`RCP` receipt, auto-verified, applying the balance mutation at once. -/
def collectFees (db : LedgerState) (data : PaymentCreate)
    (currentUserId clock : Nat) : Except ApiError (LedgerState × FeesPayment) :=
  match db.assigns.find? (fun a => a.id == data.fees_assign_id) with
  | none => .error (.notFound ("Fees assignment not found"))
  | some assign =>
    if assign.student_id ≠ data.student_id then
      .error (.badRequest ("Student ID does not match the fees assignment"))
    else if assign.balance < data.amount then
      .error (.badRequest ("Payment amount exceeds balance"))
    else if assign.status = "paid" then
      .error (.badRequest ("This fee has already been fully paid"))
    else
      let receipt := "RCP-" ++ toString data.school_id ++ "-" ++ toString clock
        ++ "-" ++ toString assign.id
      let payment : FeesPayment :=
        { id := nextPaymentId db
          school_id := data.school_id
          student_id := data.student_id
          fees_assign_id := assign.id
          fees_master_id := assign.fees_master_id
          amount := data.amount
          payment_method := data.payment_method
          receipt_number := receipt
          note := data.note
          collected_by := currentUserId
          is_verified := true
          verified_by := none
          verified_at := none }
      .ok ({ db with
              payments := db.payments ++ [payment]
              assigns := updateFirst db.assigns (fun a => a.id == data.fees_assign_id)
                (fun a => payMutation a data.amount) },
           payment)

/-- `create_offline_bank_payment` (fees.py lines 564-601): records an
unverified `OBP` bank-transfer payment.  The source checks only that the
assignment exists and that the amount does not exceed the balance; it has
no student-match check and no already-paid check, and it does not touch the
assignment. -/
def createOfflineBankPayment (db : LedgerState) (data : PaymentCreate)
    (currentUserId clock : Nat) : Except ApiError (LedgerState × FeesPayment) :=
  match db.assigns.find? (fun a => a.id == data.fees_assign_id) with
  | none => .error (.notFound ("Fees assignment not found"))
  | some assign =>
    if assign.balance < data.amount then
      .error (.badRequest ("Payment amount exceeds balance"))
    else
      let receipt := "OBP-" ++ toString data.school_id ++ "-" ++ toString clock
        ++ "-" ++ toString assign.id
      let payment : FeesPayment :=
        { id := nextPaymentId db
          school_id := data.school_id
          student_id := data.student_id
          fees_assign_id := assign.id
          fees_master_id := assign.fees_master_id
          amount := data.amount
          payment_method := "bank_transfer"
          receipt_number := receipt
          note := data.note
          collected_by := currentUserId
          is_verified := false
          verified_by := none
          verified_at := none }
      .ok ({ db with payments := db.payments ++ [payment] }, payment)

/-- The verification stamp of `verify_offline_bank_payment` (fees.py lines
638-642): `is_verified` takes the caller's flag — also on rejection — and
the audit fields are set; the python guard `if data.note:` is embedded as
presence of the optional note. -/
def verifyStamp (payment : FeesPayment) (approve : Bool) (note : Option String)
    (currentUserId clock : Nat) : FeesPayment :=
  { payment with
    is_verified := approve
    verified_by := some currentUserId
    verified_at := some clock
    note := match note with | some n => some n | none => payment.note }

/-- `verify_offline_bank_payment` (fees.py lines 625-657): stamps the
verification fields with the caller's `is_verified` flag, and applies the
balance mutation only when approving. -/
def verifyOfflinePayment (db : LedgerState) (paymentId : Nat) (approve : Bool)
    (note : Option String) (currentUserId clock : Nat) :
    Except ApiError (LedgerState × FeesPayment) :=
  match db.payments.find? (fun p => p.id == paymentId) with
  | none => .error (.notFound ("Payment not found"))
  | some payment =>
    if payment.is_verified then
      .error (.badRequest ("Payment already verified"))
    else
      let payment' := verifyStamp payment approve note currentUserId clock
      let db1 := { db with
        payments := updateFirst db.payments (fun p => p.id == paymentId)
          (fun _ => payment') }
      if approve then
        match db1.assigns.find? (fun a => a.id == payment.fees_assign_id) with
        | some _ =>
          .ok ({ db1 with
                  assigns := updateFirst db1.assigns
                    (fun a => a.id == payment.fees_assign_id)
                    (fun a => payMutation a payment.amount) },
               payment')
        | none => .ok (db1, payment')
      else
        .ok (db1, payment')

/-- Request body `QuickFeesAssign`.  The `class_id` branch of the source
resolves to a list of student ids (all active students of the school) that
feeds the same per-student loop; the embedding takes the resolved list. -/
structure QuickAssignData where
  school_id : Nat
  fees_master_id : Nat
  student_ids : List Nat
  discount_id : Option Nat
deriving DecidableEq, Repr

/-- The discount arithmetic of `quick_assign_fees` (fees.py lines 527-533):
`total = master.amount`, then `total * (1 - amount/100)` for a percentage
discount or `max(0, total - amount)` for a fixed one. -/
def assignTotal (masterAmount : ℚ) (discount : Option FeesDiscount) : ℚ :=
  match discount with
  | none => masterAmount
  | some d =>
    if d.discount_type = DiscountType.percentage then
      masterAmount * (1 - d.amount / 100)
    else
      max 0 (masterAmount - d.amount)

/-- The `FeesAssign` row built by `quick_assign_fees` (fees.py lines
535-545): `total_amount = balance = round(total, 2)`, `paid_amount = 0`,
status "unpaid", due date copied from the master. -/
def mkQuickAssign (data : QuickAssignData) (sid : Nat) (master : FeesMaster)
    (discount : Option FeesDiscount) (newId : Nat) : FeesAssign :=
  { id := newId
    school_id := data.school_id
    student_id := sid
    fees_master_id := master.id
    discount_id := data.discount_id
    total_amount := round2 (assignTotal master.amount discount)
    paid_amount := 0
    balance := round2 (assignTotal master.amount discount)
    status := "unpaid"
    due_date := master.due_date
    is_carried_forward := false }

/-- The idempotency guard of `quick_assign_fees` (fees.py lines 519-523):
an existing non-carried-forward assignment for the same (student, master)
pair.  With `autoflush=False` this query sees only rows committed before
the call. -/
def hasNonCF (db : LedgerState) (sid mid : Nat) : Bool :=
  (db.assigns.find? (fun a =>
    a.student_id == sid && a.fees_master_id == mid && a.is_carried_forward == false)).isSome

/-- The per-student loop of `quick_assign_fees` (fees.py lines 517-547):
skip students that already have a non-carried-forward assignment, create a
row for the rest.  The skip check runs against the entry state `db`
(`autoflush=False`). -/
def quickAssignLoop (db : LedgerState) (data : QuickAssignData)
    (master : FeesMaster) (discount : Option FeesDiscount) :
    List Nat → Nat → List FeesAssign
  | [], _ => []
  | sid :: rest, nid =>
    if hasNonCF db sid master.id then
      quickAssignLoop db data master discount rest nid
    else
      mkQuickAssign data sid master discount nid
        :: quickAssignLoop db data master discount rest (nid + 1)

/-- `quick_assign_fees` (fees.py lines 482-559): bulk assignment of one
fees master to a set of students, skipping already-assigned students and
returning only the newly created rows.  A missing discount id silently
yields no discount, as in the source. -/
def quickAssignFees (db : LedgerState) (data : QuickAssignData) :
    Except ApiError (LedgerState × List FeesAssign) :=
  match db.masters.find? (fun m => m.id == data.fees_master_id) with
  | none => .error (.notFound ("Fees master not found"))
  | some master =>
    let discount := data.discount_id.bind
      (fun did => db.discounts.find? (fun d => d.id == did))
    if data.student_ids = [] then
      .error (.badRequest ("No students specified"))
    else
      let created := quickAssignLoop db data master discount
        data.student_ids (nextAssignId db)
      .ok ({ db with assigns := db.assigns ++ created }, created)

/-- The list of rows one `quick_assign_fees` call creates (the loop with
its resolved discount and fresh ids); `quickAssignFees` returns exactly
this list on success. -/
def quickAssignResult (db : LedgerState) (data : QuickAssignData)
    (master : FeesMaster) : List FeesAssign :=
  quickAssignLoop db data master
    (data.discount_id.bind (fun did => db.discounts.find? (fun d => d.id == did)))
    data.student_ids (nextAssignId db)

/-- Request body `FeesCarryForwardRequest`. -/
structure CarryForwardRequest where
  school_id : Nat
  from_academic_year : String
  to_academic_year : String
  from_term : Option String
  student_ids : Option (List Nat)
deriving DecidableEq, Repr

/-- The selection of `carry_forward_fees` (fees.py lines 702-712): rows of
the school joined to a master of the from-year (and from-term when given),
with positive balance, restricted to the given students when given. -/
def matchesCarryForward (masters : List FeesMaster) (data : CarryForwardRequest)
    (a : FeesAssign) : Bool :=
  match masters.find? (fun m => m.id == a.fees_master_id) with
  | none => false
  | some m =>
    a.school_id == data.school_id && decide (0 < a.balance) &&
    m.academic_year == data.from_academic_year &&
    (match data.from_term with
     | none => true
     | some t => m.term == some t) &&
    (match data.student_ids with
     | none => true
     | some sids => sids.contains a.student_id)

/-- The fresh row built for one selected assignment by `carry_forward_fees`
(fees.py lines 715-728): the unpaid balance becomes a new obligation. -/
def carryForwardCopy (a : FeesAssign) (newId : Nat) : FeesAssign :=
  { id := newId
    school_id := a.school_id
    student_id := a.student_id
    fees_master_id := a.fees_master_id
    discount_id := a.discount_id
    total_amount := a.balance
    paid_amount := 0
    balance := a.balance
    status := "unpaid"
    due_date := none
    is_carried_forward := true }

/-- One copy per selected row, with fresh ids. -/
def carryForwardLoop : List FeesAssign → Nat → List FeesAssign
  | [], _ => []
  | a :: rest, nid => carryForwardCopy a nid :: carryForwardLoop rest (nid + 1)

/-- `carry_forward_fees` (fees.py lines 696-733): duplicates every selected
unpaid row into a fresh carried-forward obligation and reports the count;
the source rows are left untouched. -/
def carryForwardFees (db : LedgerState) (data : CarryForwardRequest) :
    LedgerState × Nat :=
  let selected := db.assigns.filter (matchesCarryForward db.masters data)
  let created := carryForwardLoop selected (nextAssignId db)
  ({ db with assigns := db.assigns ++ created }, created.length)

/-- The three-way status rule of the specification: "paid" iff the balance
is ≤ 0, "partial" iff 0 < paid_amount < total_amount, else "unpaid". -/
def specStatus (total paid balance : ℚ) : String :=
  if balance ≤ 0 then ("paid")
  else if 0 < paid ∧ paid < total then ("partial")
  else ("unpaid")

/-- The ledger invariant claimed of FeesAssign rows: non-negative paid
amount and balance, the balance equation, and the status rule. -/
def ledgerInvariant (a : FeesAssign) : Prop :=
  0 ≤ a.paid_amount ∧ 0 ≤ a.balance ∧
  a.balance = a.total_amount - a.paid_amount ∧
  a.status = specStatus a.total_amount a.paid_amount a.balance

/-- A discount row as the schema validates it: positive amount, and a
percentage discount capped at 100 (`backend/app/schemas/fees.py`). -/
def validDiscount (d : FeesDiscount) : Prop :=
  0 < d.amount ∧ (d.discount_type = DiscountType.percentage → d.amount ≤ 100)

/-- Number of non-carried-forward assignments of one (student, master)
pair present in the store. -/
def countNonCF (db : LedgerState) (sid mid : Nat) : Nat :=
  db.assigns.countP (fun a =>
    a.student_id == sid && a.fees_master_id == mid && a.is_carried_forward == false)

/-!
AI content-generation pipeline, embedded from
`backend/app/services/ai_service.py`.  The outbound HTTP calls of the
provider-specific helpers are abstracted into an `attempt` function mapping
a provider to either its trimmed text response or the text of the raised
exception (`f"\x7btype(e).__name__\x7d: \x7be\x7d"` in the source's error
accumulation).

The `Settings` class of `backend/app/core/config.py` is a pydantic
`BaseSettings` whose only AI-provider fields are `ANTHROPIC_API_KEY` and
`CLAUDE_MODEL`; it declares no OpenAI, xAI, Gemini or DeepSeek field
(nor `AI_MAX_TOKENS`), and reading an undeclared attribute of a pydantic
model raises `AttributeError`.  `_get_providers` reads
`settings.OPENAI_API_KEY` at ai_service.py line 34, so every call raises
`AttributeError` there, and `_call_ai` invokes `_get_providers()` at line
175 outside the per-provider `try`, so the exception reaches every caller.
The embedding keeps this error path: attribute reads that the class does
not declare surface as `PyError.attributeError`.
-/

/-- One entry of the provider list: `(name, api_url, api_key, model)`. -/
structure Provider where
  name : String
  api_url : String
  api_key : String
  model : String
deriving DecidableEq, Repr

/-- The AI-provider slice of `backend/app/core/config.py`: the `Settings`
class declares only `ANTHROPIC_API_KEY: str = ""` and
`CLAUDE_MODEL: str = "claude-3-sonnet-20240229"`; the other providers'
keys and models are absent from the class. -/
structure Settings where
  anthropicApiKey : String
  claudeModel : String
deriving DecidableEq, Repr

/-- Exceptions the AI-service call path can raise: the `AttributeError`
from reading an attribute the pydantic `Settings` class does not declare,
and the `RuntimeError`s `_call_ai` constructs. -/
inductive PyError where
  | attributeError (name : String)
  | runtimeError (msg : String)
deriving DecidableEq, Repr

/-- `_get_providers` (ai_service.py lines 22-66) against the real
`Settings` of config.py: the Anthropic block (lines 26-32) reads declared
fields and would append the Claude entry for a truthy key, but the next
statement (line 34) reads `settings.OPENAI_API_KEY`, a field the class
does not declare, so every call raises `AttributeError` before any list is
returned. -/
def getProviders (s : Settings) : Except PyError (List Provider) :=
  let _claude :=
    if s.anthropicApiKey ≠ "" then
      [{ name := "Claude", api_url := "https://api.anthropic.com/v1/messages",
         api_key := s.anthropicApiKey, model := s.claudeModel }]
    else ([] : List Provider)
  .error (.attributeError ("OPENAI_API_KEY"))

/-- Python's `"\n".join(...)`. -/
def joinNewline : List String → String
  | [] => ""
  | [e] => e
  | e :: es => e ++ "\n" ++ joinNewline es

/-- The message of the `RuntimeError` raised when no provider is
configured (ai_service.py line 178). -/
def noProviderMsg : String := "No AI providers configured. Set at least one API key in .env"

/-- The message of the `RuntimeError` raised when every configured
provider fails (ai_service.py lines 199-201): the per-provider error
entries, each prefixed "  - ", joined by newlines under a fixed header. -/
def allFailedMsg (errors : List String) : String :=
  "All AI providers failed:\n" ++ joinNewline (errors.map (fun e => "  - " ++ e))

/-- The fallback loop of `_call_ai` (ai_service.py lines 180-201):
try each provider in order, accumulating `f"\x7bname\x7d: \x7berr\x7d"`
entries for the failures.  (Unreachable in the program as shipped, since
`_get_providers` raises first; embedded for the record.) -/
def callAILoop (attempt : Provider → Except String String) :
    List Provider → List String → Except PyError String
  | [], errors => .error (.runtimeError (allFailedMsg errors))
  | p :: rest, errors =>
    match attempt p with
    | .ok text => .ok text
    | .error e => callAILoop attempt rest (errors ++ [p.name ++ ": " ++ e])

/-- `_call_ai` (ai_service.py lines 169-201) with the per-provider HTTP
call abstracted as `attempt`.  `_get_providers()` is called at line 175,
outside the per-provider `try`, so its `AttributeError` propagates; the
no-provider and all-failed `RuntimeError` branches sit below it. -/
def callAI (s : Settings) (attempt : Provider → Except String String) :
    Except PyError String :=
  match getProviders s with
  | .error e => .error e
  | .ok providers =>
    if providers = [] then .error (.runtimeError noProviderMsg)
    else callAILoop attempt providers []

/-!
`_extract_json` (ai_service.py lines 204-238) and the `json.loads` it
relies on, embedded over `List Char`.  Brace and backtick characters are
written via `Char.ofNat` throughout.
-/

/-- The characters `\x7b`, `\x7d` and the backtick. -/
def lbrace : Char := Char.ofNat 123

/-- Closing brace. -/
def rbrace : Char := Char.ofNat 125

/-- Backtick. -/
def btick : Char := Char.ofNat 96

/-- The regex class `\s` on the source's ASCII inputs. -/
def pyWs (c : Char) : Bool :=
  c = ' ' || c = '\t' || c = '\n' || c = '\r' || c = '\x0b' || c = '\x0c'

/-- Content strictly before the first occurrence of three backticks
(the lazy `(.*?)` of the fence regex, under `re.DOTALL`), or `none` when
no closing fence exists. -/
def takeUntilTicks : List Char → Option (List Char)
  | [] => none
  | c :: rest =>
    if c = btick ∧ rest.take 2 = [btick, btick] then some []
    else (takeUntilTicks rest).map (fun g => c :: g)

/-- The `\s*\n(.*?)` tail of the fence pattern applied after the optional
`json` tag: the greedy `\s*` consumes the whitespace run up to the last
newline it contains (a shorter run would leave a non-newline whitespace
character where `\n` must match, a longer one is not all-whitespace), then
the lazy group runs to the first closing fence. -/
def fenceBody (r : List Char) : Option (List Char) :=
  let run := r.takeWhile pyWs
  match (run.reverse.findIdx? (fun c => c = '\n')).map
      (fun k => run.length - 1 - k) with
  | none => none
  | some j => takeUntilTicks (r.drop (j + 1))

/-- Match of the fence regex anchored at the start of `s`: literal
backticks, then the greedy optional `json` tag (trying the tagged
alternative first, as backtracking does). -/
def matchFenceAt (s : List Char) : Option (List Char) :=
  if [btick, btick, btick].isPrefixOf s then
    let r0 := s.drop 3
    if ("json".toList).isPrefixOf r0 then
      match fenceBody (r0.drop 4) with
      | some g => some g
      | none => fenceBody r0
    else fenceBody r0
  else none

/-- `re.search` of the fence pattern: the leftmost position with a match. -/
def fenceSearch : List Char → Option (List Char)
  | [] => none
  | c :: rest =>
    match matchFenceAt (c :: rest) with
    | some g => some g
    | none => fenceSearch rest

/-- The matching-brace scan of `_extract_json` (ai_service.py lines
214-224), run on the text from its first `\x7b` on: the index one past the
brace closing the first one, or `none` when the braces never balance. -/
def braceScan : List Char → Int → Nat → Option Nat
  | [], _, _ => none
  | c :: rest, depth, i =>
    if c = lbrace then braceScan rest (depth + 1) (i + 1)
    else if c = rbrace then
      if depth - 1 = 0 then some (i + 1)
      else braceScan rest (depth - 1) (i + 1)
    else braceScan rest depth (i + 1)

/-- The outermost-object slice (ai_service.py lines 212-225): when the text
contains a `\x7b`, slice from it to its matching close; when the scan never
balances, `end` keeps its initial value `start` and the slice is empty. -/
def braceSlice (t : List Char) : List Char :=
  if t.any (fun c => c = lbrace) then
    let rest := t.dropWhile (fun c => c ≠ lbrace)
    match braceScan rest 0 0 with
    | some n => rest.take n
    | none => []
  else t

/-- `re.sub(r",\s*([\x7d\]])", r"\1", text)` (ai_service.py line 229):
drop a comma standing, up to whitespace, before a closing brace or
bracket; scanning advances one character when a comma does not match. -/
def stripTrailingCommas (fuel : Nat) (t : List Char) : List Char :=
  match fuel, t with
  | 0, rest => rest
  | _, [] => []
  | fuel + 1, c :: rest =>
    if c = ',' then
      let ws := rest.takeWhile pyWs
      match rest.drop ws.length with
      | d :: rs =>
        if d = rbrace ∨ d = ']' then d :: stripTrailingCommas fuel rs
        else c :: stripTrailingCommas fuel rest
      | [] => c :: stripTrailingCommas fuel rest
    else c :: stripTrailingCommas fuel rest

/-- `re.sub(r"[\x00-\x1f\x7f]", ...)` (ai_service.py line 231): embedded
newline, carriage-return and tab characters become one space, every other
control character is dropped. -/
def ctrlClean (t : List Char) : List Char :=
  t.filterMap (fun c =>
    if c = '\n' ∨ c = '\r' ∨ c = '\t' then some ' '
    else if c.toNat ≤ 31 ∨ c.toNat = 127 then none
    else some c)

/-- Parsed JSON value as `json.loads` returns it.  Numbers are embedded as
integers: no embedded input carries a fraction or exponent, on which the
parser is left undefined (it fails). -/
inductive Json where
  | jnull
  | jbool (b : Bool)
  | jnum (n : Int)
  | jstr (s : String)
  | jarr (elems : List Json)
  | jobj (fields : List (String × Json))

/-- Python-dict insertion: a repeated key keeps its first position and
takes the last value. -/
def objInsert (fields : List (String × Json)) (k : String) (v : Json) :
    List (String × Json) :=
  if fields.any (fun kv => kv.1 = k) then
    fields.map (fun kv => if kv.1 = k then (k, v) else kv)
  else fields ++ [(k, v)]

/-- JSON whitespace accepted between tokens. -/
def jsonWs (c : Char) : Bool :=
  c = ' ' || c = '\t' || c = '\n' || c = '\r'

/-- One escape character of a JSON string (`\uXXXX` is not embedded: no
input of the repository's logic reaches it). -/
def jsonEsc (c : Char) : Option Char :=
  if c = '"' then some '"'
  else if c = '\\' then some '\\'
  else if c = '/' then some '/'
  else if c = 'n' then some '\n'
  else if c = 't' then some '\t'
  else if c = 'r' then some '\r'
  else if c = 'b' then some (Char.ofNat 8)
  else if c = 'f' then some (Char.ofNat 12)
  else none

/-- Body of a JSON string after the opening quote: the decoded characters
and the rest after the closing quote.  `json.loads` is strict: a raw
control character inside a string is an error. -/
def parseStrChars (fuel : Nat) : List Char → Option (List Char × List Char)
  | [] => none
  | c :: rest =>
    match fuel with
    | 0 => none
    | fuel + 1 =>
      if c = '"' then some ([], rest)
      else if c = '\\' then
        match rest with
        | [] => none
        | e :: rr =>
          match jsonEsc e with
          | none => none
          | some d => (parseStrChars fuel rr).map (fun p => (d :: p.1, p.2))
      else if c.toNat < 32 then none
      else (parseStrChars fuel rest).map (fun p => (c :: p.1, p.2))

/-- Digits of a JSON integer into its value. -/
def digitsVal : List Char → Nat → Nat
  | [], acc => acc
  | c :: rest, acc => digitsVal rest (acc * 10 + (c.toNat - 48))

/-- A JSON number restricted to integers: optional minus then digits,
failing on a fraction or exponent. -/
def parseNum (t : List Char) : Option (Json × List Char) :=
  let neg := t.take 1 = ['-']
  let t1 := if neg then t.drop 1 else t
  let ds := t1.takeWhile Char.isDigit
  let rest := t1.drop ds.length
  if ds = [] then none
  else if rest.take 1 = ['.'] ∨ rest.take 1 = ['e'] ∨ rest.take 1 = ['E'] then none
  else
    let n : Int := Int.ofNat (digitsVal ds 0)
    some (.jnum (if neg then -n else n), rest)

mutual

/-- Recursive-descent JSON value parser (the grammar `json.loads`
accepts, restricted as documented on `Json`), fuelled by input length. -/
def parseVal (fuel : Nat) (t : List Char) : Option (Json × List Char) :=
  match fuel with
  | 0 => none
  | fuel + 1 =>
    match t.dropWhile jsonWs with
    | [] => none
    | c :: rest =>
      if c = lbrace then
        match rest.dropWhile jsonWs with
        | d :: rs =>
          if d = rbrace then some (.jobj [], rs)
          else parseMembers fuel (rest.dropWhile jsonWs) []
        | [] => none
      else if c = '[' then
        match rest.dropWhile jsonWs with
        | d :: rs =>
          if d = ']' then some (.jarr [], rs)
          else parseItems fuel (rest.dropWhile jsonWs) []
        | [] => none
      else if c = '"' then
        (parseStrChars (rest.length + 1) rest).map
          (fun p => (.jstr (String.mk p.1), p.2))
      else if c = 't' then
        if rest.take 3 = ['r', 'u', 'e'] then some (.jbool true, rest.drop 3) else none
      else if c = 'f' then
        if rest.take 4 = ['a', 'l', 's', 'e'] then some (.jbool false, rest.drop 4) else none
      else if c = 'n' then
        if rest.take 3 = ['u', 'l', 'l'] then some (.jnull, rest.drop 3) else none
      else if c = '-' ∨ c.isDigit then
        parseNum (c :: rest)
      else none

/-- Members of a JSON object, positioned at a key. -/
def parseMembers (fuel : Nat) (t : List Char) (acc : List (String × Json)) :
    Option (Json × List Char) :=
  match fuel with
  | 0 => none
  | fuel + 1 =>
    match t with
    | [] => none
    | c :: rest =>
      if c = '"' then
        match parseStrChars (rest.length + 1) rest with
        | none => none
        | some (key, r1) =>
          match r1.dropWhile jsonWs with
          | ':' :: r2 =>
            match parseVal fuel r2 with
            | none => none
            | some (v, r3) =>
              let acc' := objInsert acc (String.mk key) v
              match r3.dropWhile jsonWs with
              | ',' :: r4 => parseMembers fuel (r4.dropWhile jsonWs) acc'
              | d :: r4 => if d = rbrace then some (.jobj acc', r4) else none
              | [] => none
          | _ => none
      else none

/-- Items of a JSON array. -/
def parseItems (fuel : Nat) (t : List Char) (acc : List Json) :
    Option (Json × List Char) :=
  match fuel with
  | 0 => none
  | fuel + 1 =>
    match parseVal fuel t with
    | none => none
    | some (v, r1) =>
      match r1.dropWhile jsonWs with
      | ',' :: r2 => parseItems fuel r2 (acc ++ [v])
      | ']' :: r2 => some (.jarr (acc ++ [v]), r2)
      | _ => none

end

/-- `json.loads`: one value, then only whitespace. -/
def jsonLoads (t : List Char) : Option Json :=
  match parseVal (2 * t.length + 2) t with
  | none => none
  | some (v, rest) => if rest.dropWhile jsonWs = [] then some v else none

/-- The lookbehind `(?<=: ")` of the last-resort repair regex. -/
def qrBehind (prev3 : List Char) : Bool :=
  prev3 = [':', ' ', '"']

/-- The lookahead scan of the repair regex: the smallest offset at which a
quote is followed by a comma, whitespace or closing brace; the lazy `.`
cannot cross a newline (no `re.DOTALL` on this pattern). -/
def qrFindEnd : List Char → Nat → Option Nat
  | [], _ => none
  | c :: rest, i =>
    if c = '"' then
      match rest with
      | d :: _ => if d = ',' ∨ pyWs d ∨ d = rbrace then some i else
          qrFindEnd rest (i + 1)
      | [] => none
    else if c = '\n' then none
    else qrFindEnd rest (i + 1)

/-- Escape every quote of the matched span (`m.group().replace
('"', '\\"')`). -/
def escQuotes : List Char → List Char
  | [] => []
  | c :: rest => if c = '"' then '\\' :: '"' :: escQuotes rest else c :: escQuotes rest

/-- The scan of `re.sub(r'(?<=: ")(.*?)(?="[,\s\x7d])', ...)`
(ai_service.py line 237): at a position straight after `: "`, the lazy
span up to the next lookahead-satisfying quote has its quotes escaped and
scanning resumes at that quote; everywhere else one character is copied.
`prev3` carries the last three characters seen, most recent last. -/
def quoteRepairAux (fuel : Nat) (prev3 : List Char) (t : List Char) : List Char :=
  match fuel, t with
  | 0, rest => rest
  | _, [] => []
  | fuel + 1, c :: rest =>
    if qrBehind prev3 then
      match qrFindEnd (c :: rest) 0 with
      | some 0 => c :: quoteRepairAux fuel (prev3.drop 1 ++ [c]) rest
      | some n =>
        let span := (c :: rest).take n
        let rest' := (c :: rest).drop n
        let ctx := prev3 ++ span
        escQuotes span ++ quoteRepairAux fuel (ctx.drop (ctx.length - 3)) rest'
      | none => c :: quoteRepairAux fuel (prev3.drop 1 ++ [c]) rest
    else c :: quoteRepairAux fuel (prev3.drop 1 ++ [c]) rest

/-- The last-resort unescaped-quote repair pass of `_extract_json`. -/
def quoteRepair (t : List Char) : List Char :=
  quoteRepairAux (t.length + 1) [' ', ' ', ' '] t

/-- `_extract_json` (ai_service.py lines 204-238): take a fenced block when
one exists, slice the outermost braces, strip trailing commas, normalize
control characters, parse; on a parse error run the quote repair once and
parse again (a second failure raises `JSONDecodeError`, embedded as
`none`). -/
def extractJson (s : String) : Option Json :=
  let t0 := s.toList
  let t1 := match fenceSearch t0 with
    | some g => g
    | none => t0
  let t2 := braceSlice t1
  let t3 := stripTrailingCommas (t2.length + 1) t2
  let t4 := ctrlClean t3
  match jsonLoads t4 with
  | some j => some j
  | none => jsonLoads (quoteRepair t4)

/-- The current balance of the assignment with the given id (0 when no
such row exists); used to state how ledger operations move balances. -/
def balanceOf (db : LedgerState) (aid : Nat) : ℚ :=
  match db.assigns.find? (fun a => a.id == aid) with
  | some a => a.balance
  | none => 0

/-!
Concrete fixtures used by counterexamples and witnesses: a store with one
fees master of amount 1000 for academic year 2024, three discounts, one
assignment of balance 300 for student 10, and one pending offline bank
payment of 100 against it.
-/

/-- Fixture fees master: amount 1000, year 2024. -/
def masterA : FeesMaster :=
  { id := 1, school_id := 1, amount := 1000, due_date := none,
    academic_year := "2024", term := none }

/-- Fixture 100% percentage discount (the schema admits exactly 100). -/
def discPct100 : FeesDiscount :=
  { id := 7, discount_type := .percentage, amount := 100 }

/-- Fixture 20% percentage discount. -/
def discPct20 : FeesDiscount :=
  { id := 8, discount_type := .percentage, amount := 20 }

/-- Fixture fixed discount of 150. -/
def discFix150 : FeesDiscount :=
  { id := 9, discount_type := .fixed, amount := 150 }

/-- Fixture assignment: student 10 owes 300 on master 1, nothing paid. -/
def assign1 : FeesAssign :=
  { id := 1, school_id := 1, student_id := 10, fees_master_id := 1,
    discount_id := none, total_amount := 300, paid_amount := 0, balance := 300,
    status := "unpaid", due_date := none, is_carried_forward := false }

/-- Fixture pending offline bank payment of 100 against `assign1`. -/
def payment1 : FeesPayment :=
  { id := 1, school_id := 1, student_id := 10, fees_assign_id := 1,
    fees_master_id := 1, amount := 100, payment_method := "bank_transfer",
    receipt_number := "OBP-1-0-1", note := none, collected_by := 2,
    is_verified := false, verified_by := none, verified_at := none }

/-- Fixture store. -/
def dbA : LedgerState :=
  { masters := [masterA], discounts := [discPct100, discPct20, discFix150],
    assigns := [assign1], payments := [payment1] }

/-- Quick-assign request: student 21, 20% discount. -/
def qaPct20 : QuickAssignData :=
  { school_id := 1, fees_master_id := 1, student_ids := [21], discount_id := some 8 }

/-- Quick-assign request: student 22, fixed discount 150. -/
def qaFix150 : QuickAssignData :=
  { school_id := 1, fees_master_id := 1, student_ids := [22], discount_id := some 9 }

/-- Quick-assign request: student 20, 100% discount. -/
def qaPct100 : QuickAssignData :=
  { school_id := 1, fees_master_id := 1, student_ids := [20], discount_id := some 7 }

/-- Quick-assign request: students 20 and 21, no discount. -/
def qaPlain : QuickAssignData :=
  { school_id := 1, fees_master_id := 1, student_ids := [20, 21], discount_id := none }

/-- Carry-forward request from year 2024, no term or student filter. -/
def cfReq : CarryForwardRequest :=
  { school_id := 1, from_academic_year := "2024", to_academic_year := "2025",
    from_term := none, student_ids := none }

/-- Offline bank payment request whose student id 999 does not match the
referenced assignment's student 10. -/
def obpMismatch : PaymentCreate :=
  { school_id := 1, student_id := 999, fees_assign_id := 1, amount := 50,
    payment_method := "bank_transfer", note := none }

/-- The spec's first ExtractJSON example: a tagged fenced block holding an
object with a trailing comma. -/
def exFenced : String := "```json\n\x7b\"a\": 1,\x7d\n```"

/-- The spec's second ExtractJSON example: prose around an object whose
string value spans a literal newline. -/
def exProse : String := "Here is the result: \x7b\"a\": \"line1\nline2\"\x7d Thanks!"

/-!
Theorems.  Small supporting lemmas come first, then one theorem per claim
(with its witness or counterexample where required).
-/

/-- Batteries' `Rat.floor` agrees with Mathlib's floor. -/
lemma ratFloor_eq_floor (q : ℚ) : q.floor = ⌊q⌋ := by
  rw [Rat.floor_def', Rat.floor_def]

/-- `round2` is rounding half-up to two decimals in Mathlib's terms. -/
lemma round2_eq_round (q : ℚ) : round2 q = ((round (100 * q) : ℤ) : ℚ) / 100 := by
  rw [round2, round_eq, ratFloor_eq_floor]

/-- Rounding to two decimals preserves non-negativity. -/
lemma round2_nonneg {q : ℚ} (h : 0 ≤ q) : 0 ≤ round2 q := by
  rw [round2, ratFloor_eq_floor]
  have h1 : (0 : ℤ) ≤ ⌊100 * q + 1 / 2⌋ := by
    rw [Int.floor_nonneg]
    linarith
  positivity

/-- Rounding to two decimals fixes zero. -/
lemma round2_zero : round2 0 = 0 := by
  rw [round2, ratFloor_eq_floor]
  norm_num

/-- The discount arithmetic on a fixed discount. -/
lemma assignTotal_fixed {d : FeesDiscount} (h : d.discount_type = DiscountType.fixed)
    (m : ℚ) : assignTotal m (some d) = max 0 (m - d.amount) := by
  simp [assignTotal, h]

/-- The discount arithmetic on a percentage discount. -/
lemma assignTotal_pct {d : FeesDiscount}
    (h : d.discount_type = DiscountType.percentage) (m : ℚ) :
    assignTotal m (some d) = m * (1 - d.amount / 100) := by
  simp [assignTotal, h]

/-- Evaluation rule for `round2` at a value `k` hundredths away from the
half-cent boundaries. -/
lemma round2_eq_div (q : ℚ) (k : ℤ) (h1 : (k : ℚ) ≤ 100 * q + 1 / 2)
    (h2 : 100 * q + 1 / 2 < k + 1) : round2 q = (k : ℚ) / 100 := by
  rw [round2, ratFloor_eq_floor]
  rw [show ⌊100 * q + 1 / 2⌋ = k from Int.floor_eq_iff.mpr ⟨h1, h2⟩]

/-- The 20% discount on the fixture master amount 1000 computes to 800. -/
lemma totalPct20 : round2 (assignTotal masterA.amount (some discPct20)) = 800 := by
  rw [assignTotal_pct rfl,
    round2_eq_div _ 80000 (by norm_num [masterA, discPct20])
      (by norm_num [masterA, discPct20])]
  norm_num

/-- The fixed discount 150 on the fixture master amount 1000 computes to 850. -/
lemma totalFix150 : round2 (assignTotal masterA.amount (some discFix150)) = 850 := by
  rw [assignTotal_fixed rfl,
    round2_eq_div _ 85000 (by norm_num [masterA, discFix150])
      (by norm_num [masterA, discFix150])]
  norm_num

/-- The 100% discount on the fixture master amount 1000 computes to 0. -/
lemma totalPct100 : round2 (assignTotal masterA.amount (some discPct100)) = 0 := by
  rw [assignTotal_pct rfl,
    round2_eq_div _ 0 (by norm_num [masterA, discPct100])
      (by norm_num [masterA, discPct100])]
  norm_num

/-- Finding after an in-place update: when the first match is replaced by
a value still satisfying the predicate, it is found in its place. -/
lemma find?_updateFirst {α : Type} (l : List α) (p : α → Bool) (f : α → α)
    (x : α) (hfind : l.find? p = some x) (hpf : p (f x) = true) :
    (updateFirst l p f).find? p = some (f x) := by
  induction l with
  | nil => simp at hfind
  | cons y ys ih =>
    by_cases hy : p y
    · rw [List.find?_cons_of_pos _ hy] at hfind
      cases hfind
      rw [updateFirst, if_pos hy, List.find?_cons_of_pos _ hpf]
    · rw [List.find?_cons_of_neg _ hy] at hfind
      rw [updateFirst, if_neg hy, List.find?_cons_of_neg _ hy]
      exact ih hfind

/-- An update by a predicate another row does not satisfy leaves lists
found by `find?` on the same predicate intact elsewhere; spelled for the
whole list: updating with `f` only changes the first `p`-match. -/
lemma updateFirst_eq_of_not_mem {α : Type} (l : List α) (p : α → Bool) (f : α → α)
    (h : ∀ x ∈ l, p x = false) : updateFirst l p f = l := by
  induction l with
  | nil => rfl
  | cons y ys ih =>
    rw [updateFirst, if_neg (by simp [h y (List.mem_cons_self _ _)]),
      ih (fun x hx => h x (List.mem_cons_of_mem _ hx))]

/-- Every row the quick-assign loop creates is `mkQuickAssign` of a target
student. -/
lemma mem_quickAssignLoop {db data master discount} {l : List Nat} {nid : Nat}
    {r : FeesAssign} (h : r ∈ quickAssignLoop db data master discount l nid) :
    ∃ sid nid', sid ∈ l ∧ r = mkQuickAssign data sid master discount nid' := by
  induction l generalizing nid with
  | nil => simp [quickAssignLoop] at h
  | cons s rest ih =>
    rw [quickAssignLoop] at h
    by_cases hs : hasNonCF db s master.id
    · rw [if_pos hs] at h
      obtain ⟨sid, nid', hmem, hr⟩ := ih h
      exact ⟨sid, nid', List.mem_cons_of_mem _ hmem, hr⟩
    · rw [if_neg hs] at h
      rcases List.mem_cons.mp h with hr | h2
      · exact ⟨s, nid, List.mem_cons_self .., hr⟩
      · obtain ⟨sid, nid', hmem, hr⟩ := ih h2
        exact ⟨sid, nid', List.mem_cons_of_mem _ hmem, hr⟩

/-- When every target student already has a non-carried-forward
assignment, the quick-assign loop creates nothing. -/
lemma quickAssignLoop_nil {db data master discount} {l : List Nat} (nid : Nat)
    (h : ∀ s ∈ l, hasNonCF db s master.id = true) :
    quickAssignLoop db data master discount l nid = [] := by
  induction l generalizing nid with
  | nil => rfl
  | cons s rest ih =>
    rw [quickAssignLoop, if_pos (h s (List.mem_cons_self _ _)),
      ih _ (fun x hx => h x (List.mem_cons_of_mem _ hx))]

/-- The guard of the quick-assign loop holds exactly when the pair already
has a non-carried-forward row. -/
lemma hasNonCF_iff {db : LedgerState} {sid mid : Nat} :
    hasNonCF db sid mid = true ↔ 0 < countNonCF db sid mid := by
  rw [hasNonCF, countNonCF, List.find?_isSome, List.countP_pos_iff]

/-- Every copy the carry-forward loop creates comes from a selected row. -/
lemma mem_carryForwardLoop {l : List FeesAssign} {nid : Nat} {c : FeesAssign}
    (h : c ∈ carryForwardLoop l nid) : ∃ a ∈ l, ∃ k, c = carryForwardCopy a k := by
  induction l generalizing nid with
  | nil => simp [carryForwardLoop] at h
  | cons a rest ih =>
    rw [carryForwardLoop] at h
    rcases List.mem_cons.mp h with hc | h2
    · exact ⟨a, List.mem_cons_self .., nid, hc⟩
    · obtain ⟨b, hb, k, hc⟩ := ih h2
      exact ⟨b, List.mem_cons_of_mem _ hb, k, hc⟩

/-- The carry-forward loop creates one row per selected row. -/
lemma carryForwardLoop_length (l : List FeesAssign) (nid : Nat) :
    (carryForwardLoop l nid).length = l.length := by
  induction l generalizing nid with
  | nil => rfl
  | cons a rest ih => rw [carryForwardLoop, List.length_cons, ih]; rfl

/-- A carried-forward copy of a selected row is selected again by the same
carry-forward request: it keeps the school, student, and master, and its
balance is the positive balance of its source. -/
lemma matchesCarryForward_copy {masters : List FeesMaster}
    {data : CarryForwardRequest} {a : FeesAssign} (k : Nat)
    (h : matchesCarryForward masters data a = true) :
    matchesCarryForward masters data (carryForwardCopy a k) = true := by
  rw [matchesCarryForward] at h ⊢
  simp only [carryForwardCopy] at *
  exact h

/-- The computed total of a quick assignment is non-negative whenever the
master amount is non-negative and the discount obeys its schema. -/
lemma assignTotal_nonneg {m : ℚ} (hm : 0 ≤ m) {disc : Option FeesDiscount}
    (hd : ∀ d, disc = some d → validDiscount d) : 0 ≤ assignTotal m disc := by
  cases disc with
  | none => simpa [assignTotal] using hm
  | some d =>
    obtain ⟨_, hcap⟩ := hd d rfl
    cases htype : d.discount_type with
    | percentage =>
      rw [assignTotal_pct htype]
      exact mul_nonneg hm (by linarith [hcap htype])
    | fixed =>
      rw [assignTotal_fixed htype]
      exact le_max_left 0 _

/-- The status rule at a freshly created row: zero paid, balance equal to a
positive total. -/
lemma specStatus_fresh {t : ℚ} (ht : 0 < t) : specStatus t 0 t = "unpaid" := by
  rw [specStatus, if_neg (not_le.mpr ht), if_neg (fun hcon => lt_irrefl 0 hcon.1)]

/-- The shared payment mutation preserves the ledger invariant when the
amount is positive and within the balance. -/
lemma payMutation_invariant {a : FeesAssign} {amt : ℚ} (hInv : ledgerInvariant a)
    (hpos : 0 < amt) (hle : amt ≤ a.balance) : ledgerInvariant (payMutation a amt) := by
  obtain ⟨hp, hb, heq, _⟩ := hInv
  refine ⟨?_, ?_, ?_, ?_⟩
  · show 0 ≤ a.paid_amount + amt
    linarith
  · show 0 ≤ a.balance - amt
    linarith
  · show a.balance - amt = a.total_amount - (a.paid_amount + amt)
    linarith
  · show (if a.balance - amt ≤ 0 then ("paid" : String) else ("partial" : String)) =
      specStatus a.total_amount (a.paid_amount + amt) (a.balance - amt)
    by_cases hc : a.balance - amt ≤ 0
    · rw [if_pos hc, specStatus, if_pos hc]
    · rw [if_neg hc, specStatus, if_neg hc,
        if_pos ⟨by linarith, by linarith⟩]

/-- A row selected by carry-forward has a positive balance. -/
lemma balance_pos_of_matches {masters : List FeesMaster}
    {data : CarryForwardRequest} {b : FeesAssign}
    (h : matchesCarryForward masters data b = true) : 0 < b.balance := by
  rw [matchesCarryForward] at h
  cases hfind : masters.find? (fun m => m.id == b.fees_master_id) with
  | none => rw [hfind] at h; cases h
  | some m =>
    rw [hfind] at h
    simp only [Bool.and_eq_true, decide_eq_true_eq] at h
    tauto

/-- C1 amended: the balance equation `balance = total_amount −
paid_amount` holds for every row the four ledger operations produce or
mutate; the non-negativity and three-way status rule hold for
QuickAssignFees rows whose computed total is positive (a full discount
creates a balance-0 row that stays "unpaid"), hold unconditionally for
CarryForward rows, are preserved by CollectPayment, and are preserved by an
approving VerifyOfflinePayment provided the payment amount still fits in
the balance at verification time. -/
theorem C1_ledger_invariant_amended :
    (∀ db data db1 created r,
      (∀ m ∈ db.masters, 0 < m.amount) →
      (∀ d ∈ db.discounts, validDiscount d) →
      quickAssignFees db data = .ok (db1, created) → r ∈ created →
      0 ≤ r.paid_amount ∧ 0 ≤ r.balance ∧
      r.balance = r.total_amount - r.paid_amount ∧
      (0 < r.total_amount →
        r.status = specStatus r.total_amount r.paid_amount r.balance)) ∧
    (∀ db data uid clk a,
      db.assigns.find? (fun x => x.id == data.fees_assign_id) = some a →
      ledgerInvariant a → 0 < data.amount → data.amount ≤ a.balance →
      a.status ≠ "paid" → a.student_id = data.student_id →
      ∃ db1 p, collectFees db data uid clk = .ok (db1, p) ∧
        ledgerInvariant (payMutation a data.amount) ∧
        db1.assigns = updateFirst db.assigns (fun x => x.id == data.fees_assign_id)
          (fun x => payMutation x data.amount)) ∧
    (∀ db pid note uid clk p a,
      db.payments.find? (fun x => x.id == pid) = some p →
      p.is_verified = false →
      db.assigns.find? (fun x => x.id == p.fees_assign_id) = some a →
      ledgerInvariant a → 0 < p.amount → p.amount ≤ a.balance →
      ∃ db1 p1, verifyOfflinePayment db pid true note uid clk = .ok (db1, p1) ∧
        ledgerInvariant (payMutation a p.amount) ∧
        db1.assigns = updateFirst db.assigns (fun x => x.id == p.fees_assign_id)
          (fun x => payMutation x p.amount)) ∧
    (∀ db data r, r ∈ (carryForwardFees db data).1.assigns →
      r ∈ db.assigns ∨ ledgerInvariant r) := by
  refine ⟨?_, ?_, ?_, ?_⟩
  · intro db data db1 created r hm hd hok hmem
    cases hfind : db.masters.find? (fun m => m.id == data.fees_master_id) with
    | none => rw [quickAssignFees, hfind] at hok; cases hok
    | some master =>
      by_cases hids : data.student_ids = []
      · simp only [quickAssignFees, hfind, if_pos hids] at hok
        cases hok
      · simp only [quickAssignFees, hfind, if_neg hids, Except.ok.injEq,
          Prod.mk.injEq] at hok
        obtain ⟨-, hcreated⟩ := hok
        rw [← hcreated] at hmem
        obtain ⟨sid, nid', -, hr⟩ := mem_quickAssignLoop hmem
        subst hr
        have hmaster : 0 < master.amount :=
          hm master (List.mem_of_find?_eq_some hfind)
        have hdisc : ∀ d, data.discount_id.bind
            (fun did => db.discounts.find? (fun x => x.id == did)) = some d →
            validDiscount d := by
          intro d hbind
          cases hdid : data.discount_id with
          | none => rw [hdid] at hbind; cases hbind
          | some did =>
            rw [hdid] at hbind
            simp only [Option.some_bind] at hbind
            exact hd d (List.mem_of_find?_eq_some hbind)
        have htot : 0 ≤ round2 (assignTotal master.amount
            (data.discount_id.bind (fun did => db.discounts.find? (fun x => x.id == did)))) :=
          round2_nonneg (assignTotal_nonneg (le_of_lt hmaster) hdisc)
        refine ⟨le_refl 0, htot, ?_, ?_⟩
        · show round2 (assignTotal master.amount _) =
            round2 (assignTotal master.amount _) - 0
          ring
        · intro hpos
          show ("unpaid" : String) = specStatus
            (mkQuickAssign data sid master _ nid').total_amount 0
            (mkQuickAssign data sid master _ nid').total_amount
          rw [specStatus_fresh hpos]
  · intro db data uid clk a hfind hInv hpos hle hstatus hstu
    simp only [collectFees, hfind]
    rw [if_neg (not_not_intro hstu), if_neg (not_lt.mpr hle), if_neg hstatus]
    exact ⟨_, _, rfl, payMutation_invariant hInv hpos hle, rfl⟩
  · intro db pid note uid clk p a hp hnv ha hInv hpos hle
    simp only [verifyOfflinePayment, hp, hnv, Bool.false_eq_true, if_false,
      if_true, ha]
    exact ⟨_, _, rfl, payMutation_invariant hInv hpos hle, rfl⟩
  · intro db data r hmem
    have hmem' : r ∈ db.assigns ++
        carryForwardLoop (db.assigns.filter (matchesCarryForward db.masters data))
          (nextAssignId db) := hmem
    rcases List.mem_append.mp hmem' with h1 | h2
    · exact Or.inl h1
    · right
      obtain ⟨b, hb, k, hr⟩ := mem_carryForwardLoop h2
      subst hr
      have hbal : 0 < b.balance := balance_pos_of_matches (List.of_mem_filter hb)
      refine ⟨le_refl 0, le_of_lt hbal, ?_, ?_⟩
      · show b.balance = b.balance - 0
        ring
      · show ("unpaid" : String) = specStatus b.balance 0 b.balance
        rw [specStatus_fresh hbal]

/-- How many rows one quick-assign loop creates for a given student: one
when the student is targeted and not yet assigned, none otherwise (the
target list must be duplicate-free; the skip check runs against the entry
state). -/
lemma countP_quickAssignLoop {db : LedgerState} {data : QuickAssignData}
    {master : FeesMaster} {discount : Option FeesDiscount} (sid : Nat)
    {l : List Nat} (nid : Nat) (hnodup : l.Nodup) :
    (quickAssignLoop db data master discount l nid).countP
      (fun a => a.student_id == sid && a.fees_master_id == master.id &&
        a.is_carried_forward == false) =
    if sid ∈ l ∧ hasNonCF db sid master.id = false then 1 else 0 := by
  induction l generalizing nid with
  | nil => simp [quickAssignLoop]
  | cons s rest ih =>
    have hnd := List.nodup_cons.mp hnodup
    rw [quickAssignLoop]
    by_cases hs : hasNonCF db s master.id
    · rw [if_pos hs, ih _ hnd.2]
      by_cases hsid : sid = s
      · subst hsid
        rw [if_neg (fun hcon => hnd.1 hcon.1),
          if_neg (fun hcon => by rw [hs] at hcon; cases hcon.2)]
      · simp [List.mem_cons, hsid]
    · rw [if_neg hs, List.countP_cons, ih _ hnd.2]
      by_cases hsid : sid = s
      · subst hsid
        have hrow : ((mkQuickAssign data sid master discount nid).student_id == sid &&
            (mkQuickAssign data sid master discount nid).fees_master_id == master.id &&
            (mkQuickAssign data sid master discount nid).is_carried_forward == false) = true := by
          simp [mkQuickAssign]
        rw [hrow, if_pos rfl, if_neg (fun hcon => hnd.1 hcon.1),
          if_pos ⟨List.mem_cons_self _ _, Bool.eq_false_iff.mpr hs⟩]
      · have hrow : ((mkQuickAssign data s master discount nid).student_id == sid &&
            (mkQuickAssign data s master discount nid).fees_master_id == master.id &&
            (mkQuickAssign data s master discount nid).is_carried_forward == false) = false := by
          simp only [mkQuickAssign, Bool.and_eq_false_iff]
          left; left
          simpa using fun hcon => hsid hcon.symm
        rw [hrow]
        simp [List.mem_cons, hsid]

/-- C8: QuickAssignFees is idempotent per (student, fees_master): with a
duplicate-free target list and at most one pre-existing non-carried-forward
row per target, a first run leaves exactly one such row per target student,
and a second identical run returns the same state with an empty created
list (every student silently skipped). -/
theorem C8_quick_assign_idempotent (db : LedgerState) (data : QuickAssignData)
    (master : FeesMaster)
    (hfind : db.masters.find? (fun m => m.id == data.fees_master_id) = some master)
    (hne : data.student_ids ≠ [])
    (hnodup : data.student_ids.Nodup)
    (hclean : ∀ sid ∈ data.student_ids, countNonCF db sid data.fees_master_id ≤ 1) :
    ∃ db1 c1, quickAssignFees db data = .ok (db1, c1) ∧
      db1.assigns = db.assigns ++ c1 ∧
      quickAssignFees db1 data = .ok (db1, []) ∧
      (∀ sid ∈ data.student_ids, countNonCF db1 sid data.fees_master_id = 1) := by
  have heqid : master.id = data.fees_master_id := by
    simpa using List.find?_some hfind
  simp only [← heqid] at hclean ⊢
  have h1 : quickAssignFees db data = Except.ok
      ({ db with assigns := db.assigns ++ quickAssignResult db data master },
        quickAssignResult db data master) := by
    simp only [quickAssignFees, hfind, if_neg hne]
    rfl
  have hcount : ∀ sid ∈ data.student_ids,
      countNonCF { db with assigns := db.assigns ++ quickAssignResult db data master }
        sid master.id = 1 := by
    intro sid hsid
    show (db.assigns ++ quickAssignResult db data master).countP
      (fun a => a.student_id == sid && a.fees_master_id == master.id &&
        a.is_carried_forward == false) = 1
    rw [List.countP_append, quickAssignResult,
      countP_quickAssignLoop sid _ hnodup]
    by_cases hs : hasNonCF db sid master.id
    · have hpos : 0 < countNonCF db sid master.id := hasNonCF_iff.mp hs
      have hle1 : countNonCF db sid master.id ≤ 1 := hclean sid hsid
      rw [if_neg (fun hcon => by rw [hs] at hcon; cases hcon.2)]
      show countNonCF db sid master.id + 0 = 1
      omega
    · have hzero : countNonCF db sid master.id = 0 := by
        rcases Nat.eq_zero_or_pos (countNonCF db sid master.id) with h0 | hp
        · exact h0
        · exact absurd (hasNonCF_iff.mpr hp) hs
      rw [if_pos ⟨hsid, Bool.eq_false_iff.mpr hs⟩]
      show countNonCF db sid master.id + 1 = 1
      omega
  have hskip : ∀ s ∈ data.student_ids,
      hasNonCF { db with assigns := db.assigns ++ quickAssignResult db data master }
        s master.id = true := by
    intro s hsmem
    exact hasNonCF_iff.mpr (by rw [hcount s hsmem]; exact Nat.one_pos)
  refine ⟨_, _, h1, rfl, ?_, hcount⟩
  show quickAssignFees { db with assigns := db.assigns ++ quickAssignResult db data master }
      data = Except.ok
      ({ db with assigns := db.assigns ++ quickAssignResult db data master }, [])
  simp only [quickAssignFees, hfind, if_neg hne]
  rw [show quickAssignLoop { db with assigns := db.assigns ++ quickAssignResult db data master }
      data master
      (data.discount_id.bind (fun did => db.discounts.find? (fun d => d.id == did)))
      data.student_ids
      (nextAssignId { db with assigns := db.assigns ++ quickAssignResult db data master }) = []
    from quickAssignLoop_nil _ hskip, List.append_nil]

/-- Reading the balance after the shared payment mutation hit the row. -/
lemma balanceOf_payMutation (db' : LedgerState) (aid : Nat) (a : FeesAssign)
    (amt : ℚ) (h : db'.assigns.find? (fun x => x.id == aid) = some (payMutation a amt)) :
    balanceOf db' aid = a.balance - amt := by
  simp only [balanceOf, h]
  rfl

/-- Reading the balance of an untouched row. -/
lemma balanceOf_found (db' : LedgerState) (aid : Nat) (a : FeesAssign)
    (h : db'.assigns.find? (fun x => x.id == aid) = some a) :
    balanceOf db' aid = a.balance := by
  simp only [balanceOf, h]

/-- C10: VerifyOfflinePayment with approve = false stamps `verified_by` and
`verified_at` but leaves `is_verified = false` and the assignments
untouched; the rejected payment is then still verifiable — a later
approving call succeeds and applies the balance mutation at that point. -/
theorem C10_reject_not_terminal (db : LedgerState) (pid : Nat)
    (note1 note2 : Option String) (u1 c1 u2 c2 : Nat)
    (p : FeesPayment) (a : FeesAssign)
    (hp : db.payments.find? (fun x => x.id == pid) = some p)
    (hnv : p.is_verified = false)
    (ha : db.assigns.find? (fun x => x.id == p.fees_assign_id) = some a) :
    ∃ db1 p1, verifyOfflinePayment db pid false note1 u1 c1 = .ok (db1, p1) ∧
      p1.is_verified = false ∧ p1.verified_by = some u1 ∧ p1.verified_at = some c1 ∧
      db1.assigns = db.assigns ∧
      ∃ db2 p2, verifyOfflinePayment db1 pid true note2 u2 c2 = .ok (db2, p2) ∧
        p2.is_verified = true ∧
        db2.assigns = updateFirst db.assigns (fun x => x.id == p.fees_assign_id)
          (fun x => payMutation x p.amount) ∧
        balanceOf db2 p.fees_assign_id = a.balance - p.amount := by
  have hpa := List.find?_some hp
  have haa := List.find?_some ha
  simp only [verifyOfflinePayment, hp, hnv, Bool.false_eq_true, if_false]
  refine ⟨_, _, rfl, rfl, rfl, rfl, rfl, ?_⟩
  have hp2 : (updateFirst db.payments (fun x => x.id == pid)
      (fun _ => verifyStamp p false note1 u1 c1)).find? (fun x => x.id == pid) =
      some (verifyStamp p false note1 u1 c1) :=
    find?_updateFirst _ _ _ _ hp hpa
  have ha2 : db.assigns.find?
      (fun x => x.id == (verifyStamp p false note1 u1 c1).fees_assign_id) = some a := ha
  simp only [verifyOfflinePayment, hp2]
  rw [if_neg (show ¬((verifyStamp p false note1 u1 c1).is_verified = true) from
    fun hcon => Bool.false_ne_true hcon)]
  simp only [eq_self_iff_true, if_true, ha2]
  refine ⟨_, _, rfl, rfl, rfl, ?_⟩
  exact balanceOf_payMutation _ _ a p.amount (find?_updateFirst _ _ _ _ ha haa)

/-- C3 amended: for two successive VerifyOfflinePayment calls on a pending
payment, the second call raises the already-verified error precisely when
the first call approved; a rejecting first call leaves the payment
re-verifiable, and across both calls the linked assignment's balance is
mutated at most once — it ends at `balance - amount` when either call
approved, and unchanged otherwise. -/
theorem C3_verify_twice_amended (db : LedgerState) (pid : Nat)
    (approve1 approve2 : Bool) (n1 n2 : Option String) (u1 c1 u2 c2 : Nat)
    (p : FeesPayment) (a : FeesAssign)
    (hp : db.payments.find? (fun x => x.id == pid) = some p)
    (hnv : p.is_verified = false)
    (ha : db.assigns.find? (fun x => x.id == p.fees_assign_id) = some a) :
    ∃ db1 p1, verifyOfflinePayment db pid approve1 n1 u1 c1 = .ok (db1, p1) ∧
      (approve1 = true →
        verifyOfflinePayment db1 pid approve2 n2 u2 c2 =
          .error (.badRequest ("Payment already verified")) ∧
        balanceOf db1 p.fees_assign_id = a.balance - p.amount) ∧
      (approve1 = false →
        ∃ db2 p2, verifyOfflinePayment db1 pid approve2 n2 u2 c2 = .ok (db2, p2) ∧
          balanceOf db2 p.fees_assign_id =
            a.balance - (if approve2 = true then p.amount else 0)) := by
  have hpa := List.find?_some hp
  have haa := List.find?_some ha
  cases approve1 with
  | true =>
    simp only [verifyOfflinePayment, hp, hnv, Bool.false_eq_true, if_false,
      eq_self_iff_true, if_true, ha]
    refine ⟨_, _, rfl, ?_, ?_⟩
    · intro _
      constructor
      · have hp2 : (updateFirst db.payments (fun x => x.id == pid)
            (fun _ => verifyStamp p true n1 u1 c1)).find? (fun x => x.id == pid) =
            some (verifyStamp p true n1 u1 c1) :=
          find?_updateFirst _ _ _ _ hp hpa
        simp only [verifyOfflinePayment, hp2]
        rw [if_pos (show (verifyStamp p true n1 u1 c1).is_verified = true from rfl)]
      · exact balanceOf_payMutation _ _ a p.amount (find?_updateFirst _ _ _ _ ha haa)
    · intro hcon
      cases hcon
  | false =>
    simp only [verifyOfflinePayment, hp, hnv, Bool.false_eq_true, if_false]
    refine ⟨_, _, rfl, ?_, ?_⟩
    · intro hcon
      cases hcon
    · intro _
      have hp2 : (updateFirst db.payments (fun x => x.id == pid)
          (fun _ => verifyStamp p false n1 u1 c1)).find? (fun x => x.id == pid) =
          some (verifyStamp p false n1 u1 c1) :=
        find?_updateFirst _ _ _ _ hp hpa
      have ha2 : db.assigns.find?
          (fun x => x.id == (verifyStamp p false n1 u1 c1).fees_assign_id) = some a := ha
      cases approve2 with
      | true =>
        simp only [verifyOfflinePayment, hp2]
        rw [if_neg (show ¬((verifyStamp p false n1 u1 c1).is_verified = true) from
          fun hcon => Bool.false_ne_true hcon)]
        simp only [eq_self_iff_true, if_true, ha2]
        refine ⟨_, _, rfl, ?_⟩
        exact balanceOf_payMutation _ _ a p.amount (find?_updateFirst _ _ _ _ ha haa)
      | false =>
        simp only [verifyOfflinePayment, hp2, Bool.false_eq_true, if_false]
        rw [if_neg (show ¬((verifyStamp p false n1 u1 c1).is_verified = true) from
          fun hcon => Bool.false_ne_true hcon)]
        refine ⟨_, _, rfl, ?_⟩
        rw [sub_zero]
        exact balanceOf_found _ _ a ha

/-- C7 (code-bug evidence): `_call_ai` never reaches its RuntimeError
branches — for every settings value and every provider-call behavior it
propagates the `AttributeError` that `_get_providers` raises when reading
the undeclared `OPENAI_API_KEY` attribute (ai_service.py line 34, invoked
outside the `try` at line 175). -/
theorem C7_call_ai_attribute_error (s : Settings)
    (attempt : Provider → Except String String) :
    callAI s attempt = .error (.attributeError ("OPENAI_API_KEY")) := rfl


/-- Witness for C8 at the fixture store: two students, no discount, no
pre-existing assignment. -/
theorem C8_quick_assign_idempotent_witness :
    ∃ db1 c1, quickAssignFees dbA qaPlain = .ok (db1, c1) ∧
      db1.assigns = dbA.assigns ++ c1 ∧
      quickAssignFees db1 qaPlain = .ok (db1, []) ∧
      (∀ sid ∈ qaPlain.student_ids, countNonCF db1 sid qaPlain.fees_master_id = 1) :=
  C8_quick_assign_idempotent dbA qaPlain masterA (by decide) (by decide) (by decide)
    (by decide)

/-- Witness for C3 at the fixture store: approve then attempt a second
verification. -/
theorem C3_verify_twice_amended_witness :
    ∃ db1 p1, verifyOfflinePayment dbA 1 true none 2 50 = .ok (db1, p1) ∧
      (true = true →
        verifyOfflinePayment db1 1 false none 3 51 =
          .error (.badRequest ("Payment already verified")) ∧
        balanceOf db1 payment1.fees_assign_id = assign1.balance - payment1.amount) ∧
      (true = false →
        ∃ db2 p2, verifyOfflinePayment db1 1 false none 3 51 = .ok (db2, p2) ∧
          balanceOf db2 payment1.fees_assign_id =
            assign1.balance - (if false = true then payment1.amount else 0)) :=
  C3_verify_twice_amended dbA 1 true false none none 2 50 3 51 payment1 assign1
    (by decide) (by decide) (by decide)

/-- Witness for C10 at the fixture store: reject, then approve. -/
theorem C10_reject_not_terminal_witness :
    ∃ db1 p1, verifyOfflinePayment dbA 1 false none 2 50 = .ok (db1, p1) ∧
      p1.is_verified = false ∧ p1.verified_by = some 2 ∧ p1.verified_at = some 50 ∧
      db1.assigns = dbA.assigns ∧
      ∃ db2 p2, verifyOfflinePayment db1 1 true none 3 51 = .ok (db2, p2) ∧
        p2.is_verified = true ∧
        db2.assigns = updateFirst dbA.assigns (fun x => x.id == payment1.fees_assign_id)
          (fun x => payMutation x payment1.amount) ∧
        balanceOf db2 payment1.fees_assign_id = assign1.balance - payment1.amount :=
  C10_reject_not_terminal dbA 1 none none 2 50 3 51 payment1 assign1 (by decide)
    (by decide) (by decide)

/-- C6: ExtractJSON takes the fenced content and strips the trailing comma
on the first example, and on the second discards the surrounding prose by
brace matching and normalizes the embedded newline to one space. -/
theorem C6_extract_json_examples :
    extractJson exFenced = some (Json.jobj [("a", Json.jnum 1)]) ∧
    extractJson exProse = some (Json.jobj [("a", Json.jstr ("line1 line2"))]) :=
  ⟨rfl, rfl⟩

/-- C4: in QuickAssignFees a 20% discount on a master amount of 1000 yields
a row of total 800 and a fixed discount of 150 yields 850; a fixed discount
exceeding the master amount floors the total at 0, a fixed discount never
drives it negative, and every computed total is a whole number of
hundredths. -/
theorem C4_quick_assign_discount_arithmetic :
    (∃ db1 r, quickAssignFees dbA qaPct20 = .ok (db1, [r]) ∧ r.total_amount = 800) ∧
    (∃ db1 r, quickAssignFees dbA qaFix150 = .ok (db1, [r]) ∧ r.total_amount = 850) ∧
    (∀ data sid master d nid, d.discount_type = DiscountType.fixed →
      master.amount < d.amount →
      (mkQuickAssign data sid master (some d) nid).total_amount = 0) ∧
    (∀ data sid master d nid, d.discount_type = DiscountType.fixed →
      0 ≤ (mkQuickAssign data sid master (some d) nid).total_amount) ∧
    (∀ data sid master disc nid, ∃ k : ℤ,
      (mkQuickAssign data sid master disc nid).total_amount = (k : ℚ) / 100) := by
  refine ⟨⟨_, _, rfl, ?_⟩, ⟨_, _, rfl, ?_⟩, ?_, ?_, ?_⟩
  · show round2 (assignTotal masterA.amount (some discPct20)) = 800
    exact totalPct20
  · show round2 (assignTotal masterA.amount (some discFix150)) = 850
    exact totalFix150
  · intro data sid master d nid hfix hlt
    show round2 (assignTotal master.amount (some d)) = 0
    rw [assignTotal_fixed hfix, max_eq_left (by linarith), round2_zero]
  · intro data sid master d nid hfix
    show 0 ≤ round2 (assignTotal master.amount (some d))
    rw [assignTotal_fixed hfix]
    exact round2_nonneg (le_max_left 0 _)
  · intro data sid master disc nid
    exact ⟨(100 * assignTotal master.amount disc + 1 / 2).floor, rfl⟩

/-- C1 counterexample: QuickAssignFees with the schema-legal 100%
percentage discount creates a row whose balance is 0 yet whose status is
"unpaid", not "paid", contradicting the claimed three-way status rule. -/
theorem C1_status_rule_counterexample :
    ∃ db1 r, quickAssignFees dbA qaPct100 = .ok (db1, [r]) ∧
      r.balance ≤ 0 ∧ r.status = "unpaid" ∧
      r.status ≠ specStatus r.total_amount r.paid_amount r.balance := by
  refine ⟨_, _, rfl, ?_, rfl, ?_⟩
  · show round2 (assignTotal masterA.amount (some discPct100)) ≤ 0
    rw [totalPct100]
  · show ("unpaid" : String) ≠
      specStatus (round2 (assignTotal masterA.amount (some discPct100))) 0
        (round2 (assignTotal masterA.amount (some discPct100)))
    rw [totalPct100]
    simp [specStatus]

/-- C2 counterexample: offline bank payment creation succeeds and records a
payment row although the supplied student id 999 does not match the
assignment's student 10. -/
theorem C2_offline_student_mismatch_counterexample :
    ∃ db1 p, createOfflineBankPayment dbA obpMismatch 2 5 = .ok (db1, p) ∧
      p.student_id = 999 ∧ assign1.student_id ≠ 999 ∧
      db1.payments = dbA.payments ++ [p] := by
  exact ⟨_, _, rfl, rfl, by decide, rfl⟩

/-- C2 amended: direct collection rejects a missing assignment, a student
mismatch, an over-balance amount and an already-paid assignment, creating
nothing; offline bank payment creation rejects only a missing assignment
and an over-balance amount — it does not check the student match (nor,
explicitly, the paid status), and with the amount within the balance it
records a payment carrying whatever student id was supplied, leaving the
assignments untouched. -/
theorem C2_payment_preconditions_amended :
    (∀ db data uid clk, db.assigns.find? (fun a => a.id == data.fees_assign_id) = none →
      collectFees db data uid clk = .error (.notFound ("Fees assignment not found"))) ∧
    (∀ db data uid clk a,
      db.assigns.find? (fun x => x.id == data.fees_assign_id) = some a →
      a.student_id ≠ data.student_id →
      collectFees db data uid clk =
        .error (.badRequest ("Student ID does not match the fees assignment"))) ∧
    (∀ db data uid clk a,
      db.assigns.find? (fun x => x.id == data.fees_assign_id) = some a →
      a.student_id = data.student_id → a.balance < data.amount →
      collectFees db data uid clk =
        .error (.badRequest ("Payment amount exceeds balance"))) ∧
    (∀ db data uid clk a,
      db.assigns.find? (fun x => x.id == data.fees_assign_id) = some a →
      a.student_id = data.student_id → data.amount ≤ a.balance → a.status = "paid" →
      collectFees db data uid clk =
        .error (.badRequest ("This fee has already been fully paid"))) ∧
    (∀ db data uid clk, db.assigns.find? (fun a => a.id == data.fees_assign_id) = none →
      createOfflineBankPayment db data uid clk =
        .error (.notFound ("Fees assignment not found"))) ∧
    (∀ db data uid clk a,
      db.assigns.find? (fun x => x.id == data.fees_assign_id) = some a →
      a.balance < data.amount →
      createOfflineBankPayment db data uid clk =
        .error (.badRequest ("Payment amount exceeds balance"))) ∧
    (∀ db data uid clk a,
      db.assigns.find? (fun x => x.id == data.fees_assign_id) = some a →
      data.amount ≤ a.balance →
      ∃ db1 p, createOfflineBankPayment db data uid clk = .ok (db1, p) ∧
        p.student_id = data.student_id ∧ db1.payments = db.payments ++ [p] ∧
        db1.assigns = db.assigns) := by
  refine ⟨?_, ?_, ?_, ?_, ?_, ?_, ?_⟩
  · intro db data uid clk h
    rw [collectFees, h]
  · intro db data uid clk a h hne
    simp only [collectFees, h]
    rw [if_pos hne]
  · intro db data uid clk a h heq hlt
    simp only [collectFees, h]
    rw [if_neg (not_not_intro heq), if_pos hlt]
  · intro db data uid clk a h heq hle hpaid
    simp only [collectFees, h]
    rw [if_neg (not_not_intro heq), if_neg (not_lt.mpr hle), if_pos hpaid]
  · intro db data uid clk h
    rw [createOfflineBankPayment, h]
  · intro db data uid clk a h hlt
    simp only [createOfflineBankPayment, h]
    rw [if_pos hlt]
  · intro db data uid clk a h hle
    simp only [createOfflineBankPayment, h]
    rw [if_neg (not_lt.mpr hle)]
    exact ⟨_, _, rfl, rfl, rfl, rfl⟩

/-- C5: CarryForward over a state whose selection is exactly one
assignment of balance 300 creates exactly one new row — total 300, balance
300, paid 0, status "unpaid", no due date, carried-forward — appended
after the untouched originals, with masters, discounts and payments (and
every field of the source row) unchanged. -/
theorem C5_carry_forward_single_source (db : LedgerState)
    (data : CarryForwardRequest) (a : FeesAssign)
    (hsel : db.assigns.filter (matchesCarryForward db.masters data) = [a])
    (hbal : a.balance = 300) :
    (carryForwardFees db data).2 = 1 ∧
    (carryForwardFees db data).1.assigns =
      db.assigns ++ [carryForwardCopy a (nextAssignId db)] ∧
    (carryForwardFees db data).1.masters = db.masters ∧
    (carryForwardFees db data).1.discounts = db.discounts ∧
    (carryForwardFees db data).1.payments = db.payments ∧
    (carryForwardCopy a (nextAssignId db)).total_amount = 300 ∧
    (carryForwardCopy a (nextAssignId db)).balance = 300 ∧
    (carryForwardCopy a (nextAssignId db)).paid_amount = 0 ∧
    (carryForwardCopy a (nextAssignId db)).status = "unpaid" ∧
    (carryForwardCopy a (nextAssignId db)).due_date = none ∧
    (carryForwardCopy a (nextAssignId db)).is_carried_forward = true := by
  refine ⟨?_, ?_, rfl, rfl, rfl, hbal, hbal, rfl, rfl, rfl, rfl⟩
  · show (carryForwardLoop (db.assigns.filter (matchesCarryForward db.masters data))
      (nextAssignId db)).length = 1
    rw [hsel]; rfl
  · show db.assigns ++ carryForwardLoop
        (db.assigns.filter (matchesCarryForward db.masters data)) (nextAssignId db) =
      db.assigns ++ [carryForwardCopy a (nextAssignId db)]
    rw [hsel]; rfl

/-- Witness for C5 at the fixture store: the single matching source is
`assign1` with balance 300. -/
theorem C5_carry_forward_single_source_witness :
    (carryForwardFees dbA cfReq).2 = 1 ∧
    (carryForwardFees dbA cfReq).1.assigns =
      dbA.assigns ++ [carryForwardCopy assign1 (nextAssignId dbA)] ∧
    (carryForwardFees dbA cfReq).1.masters = dbA.masters ∧
    (carryForwardFees dbA cfReq).1.discounts = dbA.discounts ∧
    (carryForwardFees dbA cfReq).1.payments = dbA.payments ∧
    (carryForwardCopy assign1 (nextAssignId dbA)).total_amount = 300 ∧
    (carryForwardCopy assign1 (nextAssignId dbA)).balance = 300 ∧
    (carryForwardCopy assign1 (nextAssignId dbA)).paid_amount = 0 ∧
    (carryForwardCopy assign1 (nextAssignId dbA)).status = "unpaid" ∧
    (carryForwardCopy assign1 (nextAssignId dbA)).due_date = none ∧
    (carryForwardCopy assign1 (nextAssignId dbA)).is_carried_forward = true :=
  C5_carry_forward_single_source dbA cfReq assign1 (by decide) (by decide)

/-- C9: CarryForward is not idempotent — each row it creates keeps the
source's master (hence its from-year) and a positive balance, so it is
selected again by an identical second request: the second run's selection
is the first selection followed by the first run's copies, and the second
run creates twice as many rows as the first. -/
theorem C9_carry_forward_not_idempotent (db : LedgerState)
    (data : CarryForwardRequest) :
    (carryForwardFees (carryForwardFees db data).1 data).2 =
      2 * (carryForwardFees db data).2 ∧
    (∀ a k, matchesCarryForward db.masters data a = true →
      matchesCarryForward db.masters data (carryForwardCopy a k) = true) ∧
    (carryForwardFees db data).1.assigns.filter (matchesCarryForward db.masters data) =
      db.assigns.filter (matchesCarryForward db.masters data) ++
        carryForwardLoop (db.assigns.filter (matchesCarryForward db.masters data))
          (nextAssignId db) := by
  have hfilter : (carryForwardFees db data).1.assigns.filter
      (matchesCarryForward db.masters data) =
      db.assigns.filter (matchesCarryForward db.masters data) ++
        carryForwardLoop (db.assigns.filter (matchesCarryForward db.masters data))
          (nextAssignId db) := by
    show (db.assigns ++ carryForwardLoop _ _).filter _ = _
    rw [List.filter_append]
    congr 1
    rw [List.filter_eq_self]
    intro c hc
    obtain ⟨b, hb, k, hck⟩ := mem_carryForwardLoop hc
    subst hck
    exact matchesCarryForward_copy k (List.of_mem_filter hb)
  refine ⟨?_, fun a k h => matchesCarryForward_copy k h, hfilter⟩
  show (carryForwardLoop ((carryForwardFees db data).1.assigns.filter
      (matchesCarryForward db.masters data)) _).length = 2 * (carryForwardLoop _ _).length
  rw [carryForwardLoop_length, carryForwardLoop_length, hfilter,
    List.length_append, carryForwardLoop_length, Nat.two_mul]

/-- C3 counterexample: after a first VerifyOfflinePayment call that rejects
(approve = false), a second call on the same payment does not raise — it
succeeds — so the claim does not hold for every pair of approve values. -/
theorem C3_reject_then_verify_again_counterexample :
    ∃ db1 p1 db2 p2, verifyOfflinePayment dbA 1 false none 2 50 = .ok (db1, p1) ∧
      verifyOfflinePayment db1 1 true none 2 51 = .ok (db2, p2) := by
  exact ⟨_, _, _, _, rfl, rfl⟩

end EduSpec
